import Mathlib

/-
Verification development for the loopserve process supervisor.

The repository contains three near-duplicate implementations of the same
lifecycle logic:
  * package `apps` (internal/apps, file part_000): App, Config, AddApp,
    IsProcessRunning, StartApp, StopApp, UpdateAppStatus;
  * the CLI in main.go: addApp, startApp, parseCommand, isProcessRunning,
    startApps, stopApps;
  * the web UI in part_001: startApp, parseCommand, isProcessRunning,
    startIndividualApp, stopIndividualApp, and the status-reconciliation
    loop inside handleApps (GET).
These are embedded below in namespaces `apps`, `cli` and `webui`.

Modelling conventions:
  * Go `int` fields (pid, port) become `Int`.
  * OS interactions (os.FindProcess, process.Signal, os.MkdirAll,
    os.Create/OpenFile, cmd.Start, exec.LookPath, saveAppsConfig's file
    write) are abstracted as boolean oracle fields of explicit "world"
    structures, one field per successive OS call of the embedded function,
    in source order.  A field `true` means the call succeeded.
  * The bytes written to log files, time.Sleep durations, and the JSON
    (de)serialisation of apps.json are not modelled; no claim refers to
    them.  Working-directory resolution (filepath.Dir / exec.LookPath) is
    likewise outside the embedding: no claim refers to the working
    directory.
  * What a start variant hands to the OS on a successful launch is
    captured in a `LaunchSpec` (argv, environment, setpgid).  `env = none`
    models a nil `cmd.Env`, i.e. the child inherits the supervisor's
    environment unchanged; `env = some e` models an explicit environment.
  * Signals actually attempted (SIGTERM, SIGKILL, os.Interrupt) are
    collected in a list; the signal-0 existence probe inside the liveness
    check is part of the probe oracle, not of that list.
-/

/-- the double-quote character (codepoint 34) used by the command tokenizer. -/
def dquoteChar : Char := Char.ofNat 34

/-- the single-quote character (codepoint 39) used by the command tokenizer. -/
def squoteChar : Char := Char.ofNat 39

/-- one app record, as persisted in apps.json (struct App in all three
implementation copies): name, port, command, pid, log_file. -/
structure App where
  name : String
  port : Int
  command : String
  pid : Int
  log_file : String
deriving DecidableEq, Repr

/-- outcome oracle for one liveness probe: whether os.FindProcess succeeds
and whether delivering signal 0 to the process succeeds. -/
structure ProbeW where
  findOk : Bool
  sig0Ok : Bool
deriving DecidableEq, Repr

/-- a termination signal attempted by a stop path: SIGTERM, SIGKILL, or
os.Interrupt (SIGINT). -/
inductive Sig where
  | term
  | kill
  | interrupt
deriving DecidableEq, Repr

/-- errors a stop path can report (messages of part_000 StopApp and
part_001 stopIndividualApp, by identity). -/
inductive StopErr where
  | notFound
  | notRunning
  | notRunningPid
  | findFailed
  | signalFailed
  | saveFailed
deriving DecidableEq, Repr

/-- errors a start path can report, by identity, covering apps.StartApp,
main.go startApp and part_001 startIndividualApp. -/
inductive StartErr where
  | alreadyRunning
  | logDirFailed
  | createLogFailed
  | openLogFailed
  | invalidCommand
  | launchFailed
  | notFound
  | saveFailed
deriving DecidableEq, Repr

/-- errors the configuration-store add operation can report. -/
inductive AddErr where
  | duplicateName
  | duplicatePort
  | saveFailed
deriving DecidableEq, Repr

/-- what a start variant passes to the OS when launching the child:
the argv vector handed to exec.Command, the cmd.Env value (`none` = nil,
child inherits the parent environment unchanged), and whether
SysProcAttr.Setpgid was set. -/
structure LaunchSpec where
  argv : List String
  env : Option (List String)
  setpgid : Bool
deriving DecidableEq, Repr

/-- result of a start variant: the (possibly mutated) record, the launch
handed to the OS if the child was started, and the reported error. -/
structure StartResult where
  app : App
  launch : Option LaunchSpec
  err : Option StartErr
deriving DecidableEq, Repr

/-- world oracle for one run of a start path, one field per OS call in
source order: the liveness probe of the already-running check, MkdirAll
for the logs directory, os.Create / first OpenFile of the log file, the
second OpenFile for the child's stdout/stderr, cmd.Start, and the pid the
OS assigns on success. -/
structure StartW where
  probe : ProbeW
  mkdirOk : Bool
  createOk : Bool
  openOk : Bool
  startOk : Bool
  newPid : Int
deriving DecidableEq, Repr

/-- world oracle for one run of apps.StopApp: the entry liveness probe,
os.FindProcess, Signal(SIGTERM), and the re-probe after the 2s grace
interval (the SIGKILL delivery result is ignored by the source). -/
structure StopW where
  probe1 : ProbeW
  findOk : Bool
  sigtermOk : Bool
  probe2 : ProbeW
deriving DecidableEq, Repr

/-- world oracle for one record of main.go stopApps: the liveness probe,
os.FindProcess, and Signal(os.Interrupt). -/
structure StopCW where
  probe : ProbeW
  findOk : Bool
  sigintOk : Bool
deriving DecidableEq, Repr

/-- world oracle for one run of part_001 stopIndividualApp: the liveness
probe, os.FindProcess, Signal(os.Interrupt), and saveAppsConfig. -/
structure StopIW where
  probe : ProbeW
  findOk : Bool
  sigintOk : Bool
  saveOk : Bool
deriving DecidableEq, Repr

/-- accumulator loop of parseCommand (main.go:254-279; part_001:156-181 is
a textually identical copy): iterate over the characters; a quote character
of either kind toggles the single `inQuotes` flag and is dropped; a space
outside quotes ends the current token (empty tokens are not emitted); any
other character, and a space inside quotes, is appended to the current
token.  Go's `current += string(char)` is modelled by accumulating the
characters of the current token in a list. -/
def parseCommandAux : List Char → Bool → List Char → List String
  | [], _, current => if current = [] then [] else [String.mk current]
  | c :: rest, inQuotes, current =>
    if c = dquoteChar ∨ c = squoteChar then
      parseCommandAux rest (!inQuotes) current
    else if c = ' ' ∧ inQuotes = false then
      if current = [] then
        parseCommandAux rest inQuotes []
      else
        String.mk current :: parseCommandAux rest inQuotes []
    else
      parseCommandAux rest inQuotes (current ++ [c])

/-- parseCommand (main.go:254-279 and the identical copy part_001:156-181):
whitespace tokenizer with a shared in-quotes flag. -/
def parseCommand (command : String) : List String :=
  parseCommandAux command.toList false []

namespace apps

/-- apps.IsProcessRunning (part_000:104-116): false for pid <= 0; otherwise
false if os.FindProcess fails, else the result of delivering signal 0. -/
def IsProcessRunning (w : ProbeW) (pid : Int) : Bool :=
  if pid ≤ 0 then false
  else if w.findOk = false then false
  else w.sig0Ok

/-- apps.StartApp (part_000:119-162).  Rejects an already-running record,
creates the logs directory, sets log_file and opens it, then launches the
command via `exec.Command("sh", "-c", app.Command)` with Setpgid set and
cmd.Env left nil (the child inherits the parent environment; no PORT
variable is appended).  The command string is never tokenized here. -/
def StartApp (w : StartW) (app : App) : StartResult :=
  if 0 < app.pid ∧ IsProcessRunning w.probe app.pid then
    ⟨app, none, some StartErr.alreadyRunning⟩
  else if w.mkdirOk = false then
    ⟨app, none, some StartErr.logDirFailed⟩
  else if w.createOk = false then
    ⟨{ app with log_file := "logs/" ++ app.name ++ ".log" },
      none, some StartErr.openLogFailed⟩
  else if w.startOk = false then
    ⟨{ app with log_file := "logs/" ++ app.name ++ ".log" },
      none, some StartErr.launchFailed⟩
  else
    ⟨{ app with log_file := "logs/" ++ app.name ++ ".log", pid := w.newPid },
      some ⟨["sh", "-c", app.command], none, true⟩, none⟩

/-- apps.StopApp (part_000:165-196).  Already-stopped records (pid <= 0 or
probe not running) are reset to pid 0 with success; a FindProcess or
SIGTERM failure also resets to 0 with success; otherwise SIGTERM, the 2s
grace sleep, a re-probe, SIGKILL if still alive, and an unconditional
reset of pid to 0.  Every path returns nil. -/
def StopApp (w : StopW) (app : App) : App × List Sig × Option StopErr :=
  if app.pid ≤ 0 ∨ IsProcessRunning w.probe1 app.pid = false then
    ({ app with pid := 0 }, [], none)
  else if w.findOk = false then
    ({ app with pid := 0 }, [], none)
  else if w.sigtermOk = false then
    ({ app with pid := 0 }, [Sig.term], none)
  else if IsProcessRunning w.probe2 app.pid then
    ({ app with pid := 0 }, [Sig.term, Sig.kill], none)
  else
    ({ app with pid := 0 }, [Sig.term], none)

/-- duplicate scan of apps.AddApp (part_000:67-80): for each existing
record, in order, the name is compared first and then the port. -/
def addAppCheck : List App → App → Option AddErr
  | [], _ => none
  | e :: rest, app =>
    if e.name = app.name then some AddErr.duplicateName
    else if e.port = app.port then some AddErr.duplicatePort
    else addAppCheck rest app

/-- apps.AddApp (part_000:67-80): reject on the first duplicate found by
`addAppCheck`, otherwise append and persist via SaveConfig (whose write
outcome is the `saveOk` oracle).  main.go addApp (129-149) performs the
same scan with log.Fatalf in place of returned errors. -/
def AddApp (saveOk : Bool) (cfg : List App) (app : App) :
    List App × Option AddErr :=
  match addAppCheck cfg app with
  | some e => (cfg, some e)
  | none => (cfg ++ [app], if saveOk then none else some AddErr.saveFailed)

/-- apps.UpdateAppStatus (part_000:199-205): clear pid to 0 for every
record with pid > 0 whose liveness probe reports not running.  The probe
world is keyed by the probed pid. -/
def UpdateAppStatus (probe : Int → ProbeW) (cfg : List App) : List App :=
  cfg.map (fun a =>
    if 0 < a.pid ∧ IsProcessRunning (probe a.pid) a.pid = false then
      { a with pid := 0 }
    else a)

end apps

namespace cli

/-- isProcessRunning (main.go:281-290; part_001:183-192 is a textually
identical copy): os.FindProcess then signal 0 — with no guard on the sign
of the pid.  The pid reaches the OS only through the two abstracted calls,
so it does not appear in the body. -/
def isProcessRunning (w : ProbeW) (_pid : Int) : Bool :=
  if w.findOk = false then false
  else w.sig0Ok

/-- startApp (main.go:197-252).  Sets log_file, creates the log file,
tokenizes the command with parseCommand failing on an empty token list,
re-opens the log for the child's stdout/stderr, and launches
`exec.Command(cmdParts[0], cmdParts[1:]...)` with
`cmd.Env = append(os.Environ(), "PORT=<port>")` and no Setpgid.
part_001 startApp (91-154) differs only in log-file text, which is outside
the embedding. -/
def startApp (w : StartW) (parentEnv : List String) (app : App) :
    StartResult :=
  if w.createOk = false then
    ⟨{ app with log_file := "logs/" ++ app.name ++ ".log" },
      none, some StartErr.createLogFailed⟩
  else if parseCommand app.command = [] then
    ⟨{ app with log_file := "logs/" ++ app.name ++ ".log" },
      none, some StartErr.invalidCommand⟩
  else if w.openOk = false then
    ⟨{ app with log_file := "logs/" ++ app.name ++ ".log" },
      none, some StartErr.openLogFailed⟩
  else if w.startOk = false then
    ⟨{ app with log_file := "logs/" ++ app.name ++ ".log" },
      none, some StartErr.launchFailed⟩
  else
    ⟨{ app with log_file := "logs/" ++ app.name ++ ".log", pid := w.newPid },
      some ⟨parseCommand app.command,
        some (parentEnv ++ ["PORT=" ++ toString app.port]), false⟩,
      none⟩

/-- loop body of stopApps (main.go:292-330) for one record: a record with
pid 0 is skipped; a record whose probe reports not running is reset to 0;
otherwise one os.Interrupt is attempted — there is no grace wait, no
re-probe and no SIGKILL — and pid is reset to 0 only when FindProcess and
the signal both succeeded. -/
def stopAppsStep (w : StopCW) (app : App) : App × List Sig :=
  if app.pid = 0 then (app, [])
  else if isProcessRunning w.probe app.pid = false then
    ({ app with pid := 0 }, [])
  else if w.findOk = false then (app, [])
  else if w.sigintOk = false then (app, [Sig.interrupt])
  else ({ app with pid := 0 }, [Sig.interrupt])

/-- stopApps (main.go:292-330): the per-record step applied to every
record, worlds keyed by pid. -/
def stopApps (w : Int → StopCW) (cfg : List App) : List App :=
  cfg.map (fun a => (stopAppsStep (w a.pid) a).1)

end cli

namespace webui

/-- startApp of part_001 (91-154): identical to main.go startApp up to
log-file text, which is outside the embedding. -/
def startApp : StartW → List String → App → StartResult :=
  cli.startApp

/-- body of stopIndividualApp (part_001:251-296) once the record is found:
pid 0 is an "is not running" error with no state change; a probe reporting
not running clears pid to 0, persists, and still returns an "is not
running" error; a FindProcess or Interrupt failure is an error with no
state change; otherwise Interrupt is delivered, pid is cleared and the
config persisted. -/
def stopTarget (w : StopIW) (app : App) : App × List Sig × Option StopErr :=
  if app.pid = 0 then (app, [], some StopErr.notRunning)
  else if cli.isProcessRunning w.probe app.pid = false then
    ({ app with pid := 0 }, [],
      if w.saveOk then some StopErr.notRunningPid else some StopErr.saveFailed)
  else if w.findOk = false then (app, [], some StopErr.findFailed)
  else if w.sigintOk = false then (app, [Sig.interrupt], some StopErr.signalFailed)
  else
    ({ app with pid := 0 }, [Sig.interrupt],
      if w.saveOk then none else some StopErr.saveFailed)

/-- stopIndividualApp (part_001:232-296): find the first record with the
given name (NotFound otherwise) and apply `stopTarget` to it in place. -/
def stopIndividualApp (w : StopIW) (cfg : List App) (name : String) :
    List App × List Sig × Option StopErr :=
  match cfg with
  | [] => ([], [], some StopErr.notFound)
  | a :: rest =>
    if a.name = name then
      ((stopTarget w a).1 :: rest, (stopTarget w a).2.1, (stopTarget w a).2.2)
    else
      ((a :: (stopIndividualApp w rest name).1),
        (stopIndividualApp w rest name).2.1,
        (stopIndividualApp w rest name).2.2)

/-- search-and-start loop of startIndividualApp (part_001:204-229): find
the first record with the given name; reject it as already running when
pid != 0 and the probe reports running; otherwise run startApp on it in
place and persist (saveOk oracle). -/
def startIndividualGo (w : StartW) (saveOk : Bool) (parentEnv : List String)
    (cfg : List App) (name : String) : List App × Option StartErr :=
  match cfg with
  | [] => ([], some StartErr.notFound)
  | a :: rest =>
    if a.name = name then
      if a.pid ≠ 0 ∧ cli.isProcessRunning w.probe a.pid then
        (a :: rest, some StartErr.alreadyRunning)
      else
        match (startApp w parentEnv a).err with
        | some e => ((startApp w parentEnv a).app :: rest, some e)
        | none =>
          ((startApp w parentEnv a).app :: rest,
            if saveOk then none else some StartErr.saveFailed)
    else
      ((a :: (startIndividualGo w saveOk parentEnv rest name).1),
        (startIndividualGo w saveOk parentEnv rest name).2)

/-- startIndividualApp (part_001:194-230): ensureLogsDir runs before the
record lookup, so a mkdir failure aborts with the log-directory error;
then the search-and-start loop. -/
def startIndividualApp (w : StartW) (saveOk : Bool) (parentEnv : List String)
    (cfg : List App) (name : String) : List App × Option StartErr :=
  if w.mkdirOk = false then (cfg, some StartErr.logDirFailed)
  else startIndividualGo w saveOk parentEnv cfg name

/-- status-reconciliation loop of handleApps GET (part_001:1100-1113):
clear pid to 0 for every record with pid != 0 whose probe reports not
running. -/
def reconcile (probe : Int → ProbeW) (cfg : List App) : List App :=
  cfg.map (fun a =>
    if a.pid ≠ 0 ∧ cli.isProcessRunning (probe a.pid) a.pid = false then
      { a with pid := 0 }
    else a)

end webui

/-- the environment a launched child actually receives, per Go's os/exec:
a nil cmd.Env means the child inherits the parent environment. -/
def childEnv (parent : List String) (spec : LaunchSpec) : List String :=
  match spec.env with
  | none => parent
  | some e => e

/-- the environment received by the child of a start result, when a child
was launched. -/
def launchedEnv (parent : List String) (r : StartResult) :
    Option (List String) :=
  match r.launch with
  | none => none
  | some spec => some (childEnv parent spec)

/-- swap the two quote characters, leaving every other character fixed. -/
def swapQuote (c : Char) : Char :=
  if c = dquoteChar then squoteChar
  else if c = squoteChar then dquoteChar
  else c

/-- swap the two quote characters throughout a string. -/
def swapQuotes (s : String) : String :=
  String.mk (s.toList.map swapQuote)

/-- a probe world in which FindProcess and signal delivery both succeed. -/
def probeAlive : ProbeW := ⟨true, true⟩

/-- a probe world in which FindProcess and signal delivery both fail. -/
def probeDead : ProbeW := ⟨false, false⟩

/-- a probe-world family reporting every pid dead. -/
def probeDeadF : Int → ProbeW := fun _ => probeDead

/-- a sample parent environment. -/
def envDemo : List String := ["HOME=/root"]

/-- a stopped record with a two-token command. -/
def appWeb : App := ⟨"web", 3000, "sleep 100", 0, ""⟩

/-- a record carrying a live-looking pid. -/
def appRun : App := ⟨"run", 3001, "sleep 100", 42, "logs/run.log"⟩

/-- a record carrying a negative pid. -/
def appNeg : App := ⟨"neg", 1, "sleep 1", -5, ""⟩

/-- a stopped record whose command string is empty. -/
def appEmptyCmd : App := ⟨"e", 2, "", 0, ""⟩

/-- a record with pid 7. -/
def app7 : App := ⟨"w", 3, "run", 7, ""⟩

/-- a record with pid 0 named "a". -/
def appStopped : App := ⟨"a", 1, "c", 0, ""⟩

/-- record "a" on port 1. -/
def appA : App := ⟨"a", 1, "ca", 0, ""⟩

/-- record "b" on port 2. -/
def appB : App := ⟨"b", 2, "cb", 0, ""⟩

/-- a new record clashing with appB by name and with appA by port. -/
def appBadd : App := ⟨"b", 1, "cx", 0, ""⟩

/-- a start world in which every OS call succeeds and the child gets pid 77. -/
def wStartOK : StartW := ⟨probeAlive, true, true, true, true, 77⟩

/-- an apps.StopApp world in which the process stays alive throughout. -/
def wStopLive : StopW := ⟨probeAlive, true, true, probeAlive⟩

/-- a stopApps world in which the process is alive but Interrupt delivery fails. -/
def wStopCFail : StopCW := ⟨probeAlive, true, false⟩

/-- a stopIndividualApp world in which every OS call succeeds. -/
def wStopI : StopIW := ⟨probeAlive, true, true, true⟩

/-- a command string whose quoted span opens with a double quote and closes
with a single quote. -/
def mixedQuoted : String := String.mk [dquoteChar, 'a', ' ', 'b', squoteChar]

/-- a command string consisting of a space between two single quotes. -/
def onlyQuoteSpace : String := String.mk [squoteChar, ' ', squoteChar]

/-- the launch main.go startApp produces for appWeb under wStartOK. -/
def specWeb : LaunchSpec :=
  ⟨["sleep", "100"], some (envDemo ++ ["PORT=3000"]), false⟩

/-- every token emitted by the tokenizer loop is a non-empty string. -/
theorem mem_parseCommandAux_ne_empty (cs : List Char) :
    ∀ (q : Bool) (cur : List Char) (t : String),
      t ∈ parseCommandAux cs q cur → t ≠ "" := by
  induction cs with
  | nil =>
    intro q cur t ht
    simp only [parseCommandAux] at ht
    by_cases h : cur = []
    · simp [h] at ht
    · rw [if_neg h] at ht
      rcases List.mem_singleton.mp ht with rfl
      intro he
      apply h
      simpa using congrArg String.data he
  | cons c rest ih =>
    intro q cur t ht
    simp only [parseCommandAux] at ht
    by_cases h1 : c = dquoteChar ∨ c = squoteChar
    · rw [if_pos h1] at ht
      exact ih _ _ _ ht
    · rw [if_neg h1] at ht
      by_cases h2 : c = ' ' ∧ q = false
      · rw [if_pos h2] at ht
        by_cases h3 : cur = []
        · rw [if_pos h3] at ht
          exact ih _ _ _ ht
        · rw [if_neg h3] at ht
          rcases List.mem_cons.mp ht with h4 | h4
          · subst h4
            intro he
            apply h3
            simpa using congrArg String.data he
          · exact ih _ _ _ h4
      · rw [if_neg h2] at ht
        exact ih _ _ _ ht

/-- on input consisting only of spaces, the tokenizer loop started outside
quotes with an empty accumulator emits nothing. -/
theorem parseCommandAux_all_space (cs : List Char)
    (h : ∀ c ∈ cs, c = ' ') : parseCommandAux cs false [] = [] := by
  induction cs with
  | nil => rfl
  | cons c rest ih =>
    have hc : c = ' ' := h c (List.mem_cons_self c rest)
    subst hc
    have h1 : ¬(' ' = dquoteChar ∨ ' ' = squoteChar) := by decide
    simp only [parseCommandAux, if_neg h1, if_pos (by decide : ' ' = ' ' ∧ false = false),
      if_pos rfl]
    exact ih (fun x hx => h x (List.mem_cons_of_mem _ hx))

/-- on input consisting only of quote characters, the tokenizer loop with
an empty accumulator emits nothing, whatever the quote state. -/
theorem parseCommandAux_all_quote (cs : List Char) :
    ∀ q : Bool, (∀ c ∈ cs, c = dquoteChar ∨ c = squoteChar) →
      parseCommandAux cs q [] = [] := by
  induction cs with
  | nil => intro q _; rfl
  | cons c rest ih =>
    intro q h
    have hc := h c (List.mem_cons_self c rest)
    simp only [parseCommandAux, if_pos hc]
    exact ih _ (fun x hx => h x (List.mem_cons_of_mem _ hx))

/-- swapping the two quote characters in the input does not change the
tokenizer loop's output: both quote kinds drive the same shared flag. -/
theorem parseCommandAux_map_swapQuote (cs : List Char) :
    ∀ (q : Bool) (cur : List Char),
      parseCommandAux (cs.map swapQuote) q cur = parseCommandAux cs q cur := by
  induction cs with
  | nil => intro q cur; rfl
  | cons c rest ih =>
    intro q cur
    simp only [List.map_cons]
    by_cases h1 : c = dquoteChar ∨ c = squoteChar
    · have h1s : swapQuote c = dquoteChar ∨ swapQuote c = squoteChar := by
        rcases h1 with h | h <;> subst h <;> decide
      simp only [parseCommandAux, if_pos h1, if_pos h1s]
      exact ih _ _
    · have hs : swapQuote c = c := by
        push_neg at h1
        simp [swapQuote, h1.1, h1.2]
      rw [hs]
      simp only [parseCommandAux, if_neg h1]
      by_cases h2 : c = ' ' ∧ q = false
      · rw [if_pos h2, if_pos h2]
        by_cases h3 : cur = []
        · rw [if_pos h3, if_pos h3]
          exact ih _ _
        · rw [if_neg h3, if_neg h3, ih _ _]
      · rw [if_neg h2, if_neg h2]
        exact ih _ _

/-- tokens emitted by the tokenizer loop never contain a quote character,
provided the accumulator contains none. -/
theorem parseCommandAux_no_quote (cs : List Char) :
    ∀ (q : Bool) (cur : List Char),
      (∀ c ∈ cur, ¬(c = dquoteChar ∨ c = squoteChar)) →
      ∀ t ∈ parseCommandAux cs q cur, ∀ c ∈ t.toList,
        ¬(c = dquoteChar ∨ c = squoteChar) := by
  induction cs with
  | nil =>
    intro q cur hcur t ht
    simp only [parseCommandAux] at ht
    by_cases h : cur = []
    · simp [h] at ht
    · rw [if_neg h] at ht
      rcases List.mem_singleton.mp ht with rfl
      intro c hc
      exact hcur c hc
  | cons c rest ih =>
    intro q cur hcur t ht
    simp only [parseCommandAux] at ht
    by_cases h1 : c = dquoteChar ∨ c = squoteChar
    · rw [if_pos h1] at ht
      exact ih _ _ hcur t ht
    · rw [if_neg h1] at ht
      by_cases h2 : c = ' ' ∧ q = false
      · rw [if_pos h2] at ht
        by_cases h3 : cur = []
        · rw [if_pos h3] at ht
          exact ih _ _ (by simp) t ht
        · rw [if_neg h3] at ht
          rcases List.mem_cons.mp ht with h4 | h4
          · subst h4
            intro x hx
            exact hcur x hx
          · exact ih _ _ (by simp) t h4
      · rw [if_neg h2] at ht
        refine ih _ _ ?_ t ht
        intro x hx
        rcases List.mem_append.mp hx with h5 | h5
        · exact hcur x h5
        · rcases List.mem_singleton.mp h5 with rfl
          exact h1

/-- the duplicate scan reports nothing when no existing record shares the
new record's name or port. -/
theorem addAppCheck_none (cfg : List App) (app : App)
    (h : ∀ e ∈ cfg, e.name ≠ app.name ∧ e.port ≠ app.port) :
    apps.addAppCheck cfg app = none := by
  induction cfg with
  | nil => rfl
  | cons e rest ih =>
    have he := h e (List.mem_cons_self e rest)
    simp only [apps.addAppCheck, if_neg he.1, if_neg he.2]
    exact ih (fun x hx => h x (List.mem_cons_of_mem _ hx))

/-- the duplicate scan reports the error chosen by the first record that
conflicts in name or port, with the name compared before the port. -/
theorem addAppCheck_eq_find (app : App) (cfg : List App) :
    apps.addAppCheck cfg app =
      (cfg.find? (fun r => r.name == app.name || r.port == app.port)).map
        (fun e => if e.name = app.name then AddErr.duplicateName
          else AddErr.duplicatePort) := by
  induction cfg with
  | nil => rfl
  | cons e rest ih =>
    by_cases h1 : e.name = app.name
    · simp [apps.addAppCheck, List.find?_cons, h1]
    · by_cases h2 : e.port = app.port
      · simp [apps.addAppCheck, List.find?_cons, h1, h2]
      · simp [apps.addAppCheck, List.find?_cons, h1, h2, ih]

/-- stopIndividualApp passes over a prefix of records none of which carries
the requested name. -/
theorem stopIndividualApp_append (w : StopIW) (nm : String) :
    ∀ (pre rest : List App), (∀ b ∈ pre, b.name ≠ nm) →
      webui.stopIndividualApp w (pre ++ rest) nm =
        ((pre ++ (webui.stopIndividualApp w rest nm).1),
          (webui.stopIndividualApp w rest nm).2.1,
          (webui.stopIndividualApp w rest nm).2.2) := by
  intro pre
  induction pre with
  | nil => intro rest _; rfl
  | cons b pre ih =>
    intro rest hpre
    have hb : ¬(b.name = nm) := hpre b (List.mem_cons_self b pre)
    simp only [List.cons_append, webui.stopIndividualApp, if_neg hb, List.append_eq]
    rw [ih rest (fun x hx => hpre x (List.mem_cons_of_mem _ hx))]

/-- stopIndividualApp applies stopTarget in place to the first record
carrying the requested name. -/
theorem stopIndividualApp_cons_found (w : StopIW) (nm : String)
    (a : App) (rest : List App) (ha : a.name = nm) :
    webui.stopIndividualApp w (a :: rest) nm =
      ((webui.stopTarget w a).1 :: rest, (webui.stopTarget w a).2.1,
        (webui.stopTarget w a).2.2) := by
  simp only [webui.stopIndividualApp, if_pos ha]

/-- the search-and-start loop passes over a prefix of records none of which
carries the requested name. -/
theorem startIndividualGo_append (w : StartW) (saveOk : Bool)
    (env : List String) (nm : String) :
    ∀ (pre rest : List App), (∀ b ∈ pre, b.name ≠ nm) →
      webui.startIndividualGo w saveOk env (pre ++ rest) nm =
        (pre ++ (webui.startIndividualGo w saveOk env rest nm).1,
          (webui.startIndividualGo w saveOk env rest nm).2) := by
  intro pre
  induction pre with
  | nil => intro rest _; rfl
  | cons b pre ih =>
    intro rest hpre
    have hb : ¬(b.name = nm) := hpre b (List.mem_cons_self b pre)
    simp only [List.cons_append, webui.startIndividualGo, if_neg hb, List.append_eq]
    rw [ih rest (fun x hx => hpre x (List.mem_cons_of_mem _ hx))]

/-- Claim C9, counterexample: the input consisting of a single quote, a
space and a single quote contains only spaces and quote characters, yet
parseCommand returns the one-element list of a whitespace token — the space
sits inside a quoted span and is preserved — not the empty list. -/
theorem claim_C9_counterexample :
    parseCommand onlyQuoteSpace = [" "] ∧
    onlyQuoteSpace.toList = [squoteChar, ' ', squoteChar] := by decide

/-- Claim C9 (amended): every token returned by the command parser is a
non-empty string; an input of only spaces, or of only quote characters,
produces the empty list.  (An input mixing quotes and spaces can retain a
space inside a quoted span and then yields a whitespace token.) -/
theorem claim_C9_theorem :
    (∀ (cmd t : String), t ∈ parseCommand cmd → t ≠ "") ∧
    (∀ cmd : String, (∀ c ∈ cmd.toList, c = ' ') → parseCommand cmd = []) ∧
    (∀ cmd : String, (∀ c ∈ cmd.toList, c = dquoteChar ∨ c = squoteChar) →
      parseCommand cmd = []) := by
  refine ⟨?_, ?_, ?_⟩
  · intro cmd t ht
    exact mem_parseCommandAux_ne_empty _ _ _ _ ht
  · intro cmd h
    exact parseCommandAux_all_space _ h
  · intro cmd h
    exact parseCommandAux_all_quote _ false h

/-- Claim C9, witness: "a" is a token of parseCommand "a b" and is indeed
non-empty. -/
theorem claim_C9_witness : ("a" : String) ≠ "" :=
  claim_C9_theorem.1 ("a b") ("a") (by decide)

/-- Claim C10: the parser's single shared in-quotes flag is toggled by both
quote characters, so swapping the two quote characters throughout the
input never changes the output, no output token contains a quote
character, and a span opened with a double quote and closed by a single
quote does not split at its inner space. -/
theorem claim_C10_theorem :
    (∀ s : String, parseCommand (swapQuotes s) = parseCommand s) ∧
    (∀ (s t : String), t ∈ parseCommand s →
      ∀ c ∈ t.toList, ¬(c = dquoteChar ∨ c = squoteChar)) ∧
    parseCommand mixedQuoted = ["a b"] := by
  refine ⟨?_, ?_, by decide⟩
  · intro s
    exact parseCommandAux_map_swapQuote s.toList false []
  · intro s t ht c hc
    exact parseCommandAux_no_quote _ _ _ (by simp) t ht c hc

/-- Claim C10, witness: the token "a b" of the mixed-quote input contains
the character a, which is not a quote character. -/
theorem claim_C10_witness : ¬('a' = dquoteChar ∨ 'a' = squoteChar) :=
  claim_C10_theorem.2.1 mixedQuoted ("a b") (by decide) 'a' (by decide)

/-- Claim C5, counterexample: the isProcessRunning of main.go/part_001 has
no guard on the sign of the pid; in a world where FindProcess and the
existence-check signal both succeed (as for a negative pid addressing a
live process group), it returns true for the pid -2, which is <= 0. -/
theorem claim_C5_counterexample :
    cli.isProcessRunning probeAlive (-2) = true ∧ ((-2 : Int) ≤ 0) := by
  decide

/-- Claim C5 (amended): apps.IsProcessRunning returns false for every
pid <= 0 and, for pid > 0, returns true exactly when FindProcess and the
existence-check signal both succeed; the isProcessRunning of
main.go/part_001 omits the pid <= 0 guard and reports exactly the outcome
of FindProcess and signal delivery for every pid. -/
theorem claim_C5_theorem :
    (∀ (w : ProbeW) (pid : Int), pid ≤ 0 →
      apps.IsProcessRunning w pid = false) ∧
    (∀ (w : ProbeW) (pid : Int), 0 < pid →
      apps.IsProcessRunning w pid = (w.findOk && w.sig0Ok)) ∧
    (∀ (w : ProbeW) (pid : Int),
      cli.isProcessRunning w pid = (w.findOk && w.sig0Ok)) := by
  refine ⟨?_, ?_, ?_⟩
  · intro w pid h
    simp [apps.IsProcessRunning, h]
  · intro w pid h
    have h0 : ¬ pid ≤ 0 := by omega
    cases hw : w.findOk <;> simp [apps.IsProcessRunning, h0, hw]
  · intro w pid
    cases hw : w.findOk <;> simp [cli.isProcessRunning, hw]

/-- Claim C5, witness: the guarded probe reports pid -3 as not running in a
world where signal delivery would succeed. -/
theorem claim_C5_witness : apps.IsProcessRunning probeAlive (-3) = false :=
  claim_C5_theorem.1 probeAlive (-3) (by decide)

/-- Claim C2, counterexample: apps.StartApp never tokenizes the command —
it launches `sh -c <command>` — so on the record with the empty command,
whose parse yields zero tokens, it succeeds instead of failing with the
invalid-command error. -/
theorem claim_C2_counterexample :
    (apps.StartApp wStartOK appEmptyCmd).err = none ∧
    parseCommand appEmptyCmd.command = [] ∧
    (apps.StartApp wStartOK appEmptyCmd).launch =
      some ⟨["sh", "-c", ""], none, true⟩ := by decide

/-- Claim C2 (amended): the startApp of main.go/part_001 tokenizes the
command with parseCommand and — once the log file was created — fails with
the invalid-command error exactly when the parse yields zero tokens;
apps.StartApp does not tokenize at all (it launches via `sh -c`) and never
reports the invalid-command error. -/
theorem claim_C2_theorem :
    (∀ (w : StartW) (env : List String) (app : App), w.createOk = true →
      ((cli.startApp w env app).err = some StartErr.invalidCommand ↔
        parseCommand app.command = [])) ∧
    (∀ (w : StartW) (app : App),
      (apps.StartApp w app).err ≠ some StartErr.invalidCommand) := by
  constructor
  · intro w env app hc
    unfold cli.startApp
    split
    · next hfalse =>
      rw [hc] at hfalse
      exact absurd hfalse (by simp)
    · split
      · next hp => simp [hp]
      · next hp =>
        split
        · simp [hp]
        · split <;> simp [hp]
  · intro w app
    unfold apps.StartApp
    split
    · simp
    · split
      · simp
      · split
        · simp
        · split <;> simp

/-- Claim C2, witness: on the record with the empty command and a world in
which the log file is created, main.go startApp fails with the
invalid-command error. -/
theorem claim_C2_witness :
    (cli.startApp wStartOK envDemo appEmptyCmd).err =
      some StartErr.invalidCommand :=
  (claim_C2_theorem.1 wStartOK envDemo appEmptyCmd rfl).mpr (by decide)

/-- Claim C3, counterexample: apps.StartApp leaves cmd.Env nil, so on a
successful start the child receives the parent environment unchanged —
not the parent environment with a PORT variable appended. -/
theorem claim_C3_counterexample :
    (apps.StartApp wStartOK appWeb).err = none ∧
    launchedEnv envDemo (apps.StartApp wStartOK appWeb) = some envDemo ∧
    envDemo ≠ envDemo ++ ["PORT=" ++ toString appWeb.port] := by decide

/-- Claim C3 (amended): every child launched by the startApp of
main.go/part_001 receives the parent environment with exactly
PORT=<record.port> appended; every child launched by apps.StartApp is
handed a nil cmd.Env and therefore inherits the parent environment
unchanged, with no PORT variable. -/
theorem claim_C3_theorem :
    (∀ (w : StartW) (env : List String) (app : App) (spec : LaunchSpec),
      (cli.startApp w env app).launch = some spec →
      spec.env = some (env ++ ["PORT=" ++ toString app.port])) ∧
    (∀ (w : StartW) (app : App) (spec : LaunchSpec),
      (apps.StartApp w app).launch = some spec → spec.env = none) := by
  constructor
  · intro w env app spec h
    unfold cli.startApp at h
    split at h
    · simp at h
    · split at h
      · simp at h
      · split at h
        · simp at h
        · split at h
          · simp at h
          · simp only [Option.some.injEq] at h
            rw [← h]
  · intro w app spec h
    unfold apps.StartApp at h
    split at h
    · simp at h
    · split at h
      · simp at h
      · split at h
        · simp at h
        · split at h
          · simp at h
          · simp only [Option.some.injEq] at h
            rw [← h]

/-- Claim C3, witness: under the all-success world, main.go startApp on the
record web (port 3000) launches with environment envDemo plus PORT=3000. -/
theorem claim_C3_witness :
    specWeb.env = some (envDemo ++ ["PORT=" ++ toString appWeb.port]) :=
  claim_C3_theorem.1 wStartOK envDemo appWeb specWeb (by decide)

/-- Claim C6: a start on a record whose pid is nonzero and whose liveness
probe reports running fails with the already-running error and leaves the
record — every field — unchanged, in apps.StartApp and in part_001
startIndividualApp alike. -/
theorem claim_C6_theorem :
    (∀ (w : StartW) (app : App),
      app.pid ≠ 0 → apps.IsProcessRunning w.probe app.pid = true →
      apps.StartApp w app = ⟨app, none, some StartErr.alreadyRunning⟩) ∧
    (∀ (w : StartW) (saveOk : Bool) (env : List String)
      (pre rest : List App) (a : App) (nm : String),
      w.mkdirOk = true → (∀ b ∈ pre, b.name ≠ nm) → a.name = nm →
      a.pid ≠ 0 → cli.isProcessRunning w.probe a.pid = true →
      webui.startIndividualApp w saveOk env (pre ++ a :: rest) nm =
        (pre ++ a :: rest, some StartErr.alreadyRunning)) := by
  constructor
  · intro w app hpid hp
    have h0 : ¬ app.pid ≤ 0 := by
      intro hle
      rw [apps.IsProcessRunning, if_pos hle] at hp
      exact absurd hp (by simp)
    have hgt : (0 : Int) < app.pid := by omega
    simp only [apps.StartApp, if_pos (And.intro hgt hp)]
  · intro w saveOk env pre rest a nm hm hpre ha hpid hp
    have hm' : ¬(w.mkdirOk = false) := by simp [hm]
    rw [webui.startIndividualApp, if_neg hm',
      startIndividualGo_append w saveOk env nm pre (a :: rest) hpre]
    simp only [webui.startIndividualGo, if_pos ha, if_pos (And.intro hpid hp)]

/-- Claim C6, witness: starting the record run (pid 42) by name, with the
probe reporting it alive, fails with the already-running error and leaves
the record set unchanged. -/
theorem claim_C6_witness :
    webui.startIndividualApp wStartOK true envDemo [appRun] ("run") =
      ([appRun], some StartErr.alreadyRunning) :=
  claim_C6_theorem.2 wStartOK true envDemo [] [] appRun ("run") rfl (by simp)
    rfl (by decide) (by decide)

/-- Claim C1, counterexample: part_001 stopIndividualApp, applied to an
existing record named a whose pid is 0, returns an "is not running" error
— not success, and not the not-found error — contradicting the claim that
stop cannot fail once the record exists. -/
theorem claim_C1_counterexample :
    (webui.stopIndividualApp wStopI [appStopped] ("a")).2.2 =
      some StopErr.notRunning ∧
    StopErr.notRunning ≠ StopErr.notFound ∧
    appStopped.pid = 0 := by decide

/-- Claim C1 (amended): apps.StopApp never returns an error, and on a
record with pid <= 0 or a probe reporting not-running it resets pid to 0
and succeeds with no signal sent; part_001 stopIndividualApp, by contrast,
returns an "is not running" error for a found record with pid 0 (leaving
the set unchanged) and for a found record whose probe reports not-running
(after resetting its pid to 0 and persisting). -/
theorem claim_C1_theorem :
    (∀ (w : StopW) (app : App), (apps.StopApp w app).2.2 = none) ∧
    (∀ (w : StopW) (app : App),
      app.pid ≤ 0 ∨ apps.IsProcessRunning w.probe1 app.pid = false →
      apps.StopApp w app = ({ app with pid := 0 }, [], none)) ∧
    (∀ (w : StopIW) (pre rest : List App) (a : App) (nm : String),
      (∀ b ∈ pre, b.name ≠ nm) → a.name = nm → a.pid = 0 →
      webui.stopIndividualApp w (pre ++ a :: rest) nm =
        (pre ++ a :: rest, [], some StopErr.notRunning)) ∧
    (∀ (w : StopIW) (pre rest : List App) (a : App) (nm : String),
      (∀ b ∈ pre, b.name ≠ nm) → a.name = nm → a.pid ≠ 0 →
      cli.isProcessRunning w.probe a.pid = false → w.saveOk = true →
      webui.stopIndividualApp w (pre ++ a :: rest) nm =
        (pre ++ { a with pid := 0 } :: rest, [],
          some StopErr.notRunningPid)) := by
  refine ⟨?_, ?_, ?_, ?_⟩
  · intro w app
    unfold apps.StopApp
    split
    · rfl
    · split
      · rfl
      · split
        · rfl
        · split <;> rfl
  · intro w app h
    simp only [apps.StopApp, if_pos h]
  · intro w pre rest a nm hpre ha hpid
    rw [stopIndividualApp_append w nm pre (a :: rest) hpre,
      stopIndividualApp_cons_found w nm a rest ha]
    simp [webui.stopTarget, hpid]
  · intro w pre rest a nm hpre ha hpid hprobe hsave
    rw [stopIndividualApp_append w nm pre (a :: rest) hpre,
      stopIndividualApp_cons_found w nm a rest ha]
    simp [webui.stopTarget, hpid, hprobe, hsave]

/-- Claim C1, witness: stopping the existing record a (pid 0) through
stopIndividualApp yields the "is not running" error with the set
unchanged. -/
theorem claim_C1_witness :
    webui.stopIndividualApp wStopI [appStopped] ("a") =
      ([appStopped], [], some StopErr.notRunning) :=
  claim_C1_theorem.2.2.1 wStopI [] [] appStopped ("a") (by simp) rfl rfl

/-- Claim C4, counterexample: main.go stopApps, on a record whose probe
reports it alive and whose Interrupt delivery fails, sends no forceful
signal, never re-probes, and leaves pid at 7 instead of resetting it to
0. -/
theorem claim_C4_counterexample :
    ((cli.stopAppsStep wStopCFail app7).1).pid = 7 ∧
    Sig.kill ∉ (cli.stopAppsStep wStopCFail app7).2 ∧
    cli.isProcessRunning wStopCFail.probe app7.pid = true := by decide

/-- Claim C4 (amended): apps.StopApp always ends with pid 0, and when the
process is alive at entry, FindProcess and SIGTERM succeed, and the
re-probe after the grace interval still reports it alive, it delivers
SIGTERM then SIGKILL; main.go stopApps instead attempts a single
os.Interrupt with no re-probe and no forceful signal, and when that
delivery fails it leaves the record's pid unchanged. -/
theorem claim_C4_theorem :
    (∀ (w : StopW) (app : App), ((apps.StopApp w app).1).pid = 0) ∧
    (∀ (w : StopW) (app : App),
      0 < app.pid → apps.IsProcessRunning w.probe1 app.pid = true →
      w.findOk = true → w.sigtermOk = true →
      apps.IsProcessRunning w.probe2 app.pid = true →
      apps.StopApp w app =
        ({ app with pid := 0 }, [Sig.term, Sig.kill], none)) ∧
    (∀ (w : StopCW) (app : App),
      app.pid ≠ 0 → cli.isProcessRunning w.probe app.pid = true →
      w.findOk = true → w.sigintOk = false →
      cli.stopAppsStep w app = (app, [Sig.interrupt])) := by
  refine ⟨?_, ?_, ?_⟩
  · intro w app
    unfold apps.StopApp
    split
    · rfl
    · split
      · rfl
      · split
        · rfl
        · split <;> rfl
  · intro w app hpid hp1 hf hs hp2
    have h1 : ¬(app.pid ≤ 0 ∨ apps.IsProcessRunning w.probe1 app.pid = false) := by
      push_neg
      exact ⟨by omega, by simp [hp1]⟩
    simp only [apps.StopApp, if_neg h1, hf, hs, hp2]
    simp
  · intro w app hpid hp hf hs
    simp only [cli.stopAppsStep, if_neg hpid, hp, hf, hs]
    simp

/-- Claim C4, witness: on a process alive at entry and still alive at the
re-probe, with FindProcess and SIGTERM succeeding, apps.StopApp delivers
SIGTERM then SIGKILL and resets pid to 0. -/
theorem claim_C4_witness :
    apps.StopApp wStopLive app7 =
      ({ app7 with pid := 0 }, [Sig.term, Sig.kill], none) :=
  claim_C4_theorem.2.1 wStopLive app7 (by decide) (by decide) rfl rfl
    (by decide)

/-- Claim C7, counterexample: adding a record whose name collides with the
second existing record and whose port collides with the first, AddApp
reports the duplicate-port error — even though an existing record shares
the name — because the scan stops at the first conflicting record. -/
theorem claim_C7_counterexample :
    (apps.AddApp true [appA, appB] appBadd).2 = some AddErr.duplicatePort ∧
    appBadd.name = appB.name ∧
    AddErr.duplicatePort ≠ AddErr.duplicateName := by decide

/-- Claim C7 (amended): when no existing record shares the new record's
name or port, AddApp appends it and persists; when some existing record
conflicts, AddApp leaves the set unchanged and reports the error chosen by
the first conflicting record in insertion order, the name compared before
the port. -/
theorem claim_C7_theorem :
    (∀ (cfg : List App) (app : App),
      (∀ e ∈ cfg, e.name ≠ app.name ∧ e.port ≠ app.port) →
      apps.AddApp true cfg app = (cfg ++ [app], none)) ∧
    (∀ (cfg : List App) (app e : App),
      cfg.find? (fun r => r.name == app.name || r.port == app.port) = some e →
      apps.AddApp true cfg app =
        (cfg, some (if e.name = app.name then AddErr.duplicateName
          else AddErr.duplicatePort))) := by
  constructor
  · intro cfg app h
    simp [apps.AddApp, addAppCheck_none cfg app h]
  · intro cfg app e h
    simp [apps.AddApp, addAppCheck_eq_find app cfg, h]

/-- Claim C7, witness: adding record b (port 2) to the set holding only
record a (port 1) appends it and succeeds. -/
theorem claim_C7_witness :
    apps.AddApp true [appA] appB = ([appA] ++ [appB], none) :=
  claim_C7_theorem.1 [appA] appB (by decide)

/-- Claim C8, counterexample: apps.UpdateAppStatus guards with pid > 0, not
pid != 0: the record with pid -5, whose pid is nonzero and whose probe
reports not running, is left unchanged instead of being cleared to 0. -/
theorem claim_C8_counterexample :
    apps.UpdateAppStatus probeDeadF [appNeg] = [appNeg] ∧
    appNeg.pid = -5 ∧
    apps.IsProcessRunning (probeDeadF appNeg.pid) appNeg.pid = false := by
  decide

/-- Claim C8 (amended): the reconciliation loop of part_001 handleApps
clears pid to 0 for exactly the records with pid != 0 whose probe reports
not running, keeping every other record; apps.UpdateAppStatus does the
same but guards with pid > 0, so a record with negative pid is kept even
when its probe reports not running. -/
theorem claim_C8_theorem :
    (∀ (probe : Int → ProbeW) (cfg : List App) (i : Nat) (a : App),
      cfg[i]? = some a →
      (webui.reconcile probe cfg)[i]? =
        some (if a.pid ≠ 0 ∧ cli.isProcessRunning (probe a.pid) a.pid = false
          then { a with pid := 0 } else a)) ∧
    (∀ (probe : Int → ProbeW) (cfg : List App) (i : Nat) (a : App),
      cfg[i]? = some a →
      (apps.UpdateAppStatus probe cfg)[i]? =
        some (if 0 < a.pid ∧ apps.IsProcessRunning (probe a.pid) a.pid = false
          then { a with pid := 0 } else a)) := by
  constructor
  · intro probe cfg i a h
    simp [webui.reconcile, List.getElem?_map, h]
  · intro probe cfg i a h
    simp [apps.UpdateAppStatus, List.getElem?_map, h]

/-- Claim C8, witness: reconciling the one-record set of the stopped-pid
record run (pid 42) under a dead-reporting probe clears its pid to 0. -/
theorem claim_C8_witness :
    (webui.reconcile probeDeadF [appRun])[0]? = some { appRun with pid := 0 } := by
  have h := claim_C8_theorem.1 probeDeadF [appRun] 0 appRun rfl
  simpa [appRun] using h
